import Mathlib

/-!
Shallow embedding of `src/static_analysis/certificate.rs` (the
`certificate_analysis` function and its helper `parse_month`) from the
`super` Android static-analysis tool, together with theorems settling the
specification claims about it.

Modelling conventions:
* Rust strings are Lean `String`s.  Rust byte slicing `s[i..j]` is modelled
  by character slicing (all strings handled by this code path are ASCII in
  the decoder's output format; a slice out of range panics in Rust and is
  `none` here).
* Panics (`unwrap`, out-of-range slice, failed parse `unwrap`) are modelled
  explicitly: fallible stages return `Option`, and the per-candidate
  analysis returns the list of vulnerabilities emitted so far paired with a
  `Bool` that is `true` when the original code would have panicked.
* `std::process::exit` is modelled as a distinguished outcome of the
  directory loop.
* The `Results` store (its module is outside the analyzed sources) is
  modelled from the spec: `set_certificate` replaces a single certificate
  slot, `add_vulnerability` appends to a write-once list.  The state also
  records, for instrumentation, the sequence of decoder invocations and of
  `set_certificate` writes, which the source performs at exactly the
  corresponding program points.
-/

namespace Certificate

/-- `parse_month` from certificate.rs lines 12–28: three-letter month
abbreviation to 1..12, anything else to 0. -/
def parse_month (s : String) : Nat :=
  match s with
  | "Jan" => 1
  | "Feb" => 2
  | "Mar" => 3
  | "Apr" => 4
  | "May" => 5
  | "Jun" => 6
  | "Jul" => 7
  | "Aug" => 8
  | "Sep" => 9
  | "Oct" => 10
  | "Nov" => 11
  | "Dec" => 12
  | _ => 0

/-- Leftmost non-overlapping split of a character list on a non-empty
separator, with explicit fuel so that the recursion is structural (the core
`String.splitOn` uses well-founded recursion and does not reduce in the
kernel).  With `fuel ≥ xs.length` and a non-empty `sep` this computes
exactly Rust's `str::split` on the corresponding strings. -/
def splitOnCharsFuel (sep : List Char) : Nat → List Char → List (List Char)
  | _, [] => [[]]
  | 0, xs => [xs]
  | fuel + 1, x :: xs =>
    if sep.isPrefixOf (x :: xs) then
      [] :: splitOnCharsFuel sep fuel ((x :: xs).drop sep.length)
    else
      match splitOnCharsFuel sep fuel xs with
      | [] => [[x]]
      | y :: ys => (x :: y) :: ys

/-- Rust `str::split(sep)` collected to a list (for a non-empty `sep`). -/
def rustSplit (s sep : String) : List String :=
  (splitOnCharsFuel sep.toList (s.toList.length + 1) s.toList).map String.mk

/-- Drop a single trailing carriage return, as Rust's `str::lines` does for
`\r\n` line endings. -/
def stripCR (l : String) : String :=
  if l.toList.getLast? = some (Char.ofNat 13) then String.mk l.toList.dropLast else l

/-- Helper for `rustLines`: every piece except the last was followed by a
newline (so its trailing `\r`, if any, is stripped); a final empty piece
corresponds to a trailing newline and produces no line. -/
def rustLinesAux : List String → List String
  | [] => []
  | [last] => if last = "" then [] else [last]
  | p :: ps => stripCR p :: rustLinesAux ps

/-- Rust `str::lines`: split on `\n`, treating `\r\n` as a line ending and
an optional final line ending. -/
def rustLines (s : String) : List String :=
  rustLinesAux (rustSplit s "\n")

/-- Rust `str::contains` for a non-empty needle: `s` has at least one
occurrence of `pat`. -/
def rustContains (s pat : String) : Bool :=
  (rustSplit s pat).length > 1

/-- The numeric value of a list of ASCII digits. -/
def digitsToNat (cs : List Char) : Nat :=
  cs.foldl (fun n c => n * 10 + (c.toNat - 48)) 0

/-- One or more ASCII digits, or nothing. -/
def rustParseDigits (cs : List Char) : Option Nat :=
  if cs ≠ [] ∧ cs.all Char.isDigit then some (digitsToNat cs) else none

/-- Rust `<u32 as FromStr>::from_str`: optional leading `+`, then one or
more ASCII digits, value below 2^32. -/
def parseU32 (s : String) : Option Nat :=
  let cs := match s.toList with
    | '+' :: rest => rest
    | cs => cs
  (rustParseDigits cs).bind fun n => if n < 2 ^ 32 then some n else none

/-- Rust `<i32 as FromStr>::from_str`: optional sign, digits, i32 range. -/
def parseI32 (s : String) : Option Int :=
  match s.toList with
  | '-' :: rest =>
    (rustParseDigits rest).bind fun n =>
      if n ≤ 2 ^ 31 then some (-(n : Int)) else none
  | '+' :: rest =>
    (rustParseDigits rest).bind fun n =>
      if n < 2 ^ 31 then some (n : Int) else none
  | cs =>
    (rustParseDigits cs).bind fun n =>
      if n < 2 ^ 31 then some (n : Int) else none

/-- Rust string slicing `s[i..j]` (ASCII assumption: byte = char); `none`
models the panic when the range does not lie inside the string. -/
def strSlice (s : String) (i j : Nat) : Option String :=
  if i ≤ j ∧ j ≤ s.length then
    some (String.mk ((s.toList.drop i).take (j - i)))
  else
    none

/-- The current local date (chrono `Local::now()` year/month/day) and the
parsed certificate date share this triple shape.  chrono guarantees
`1 ≤ month ≤ 12` for the current date; a parsed certificate month is 0 when
the abbreviation is unrecognized. -/
structure CertDate where
  year : Int
  month : Nat
  day : Nat
deriving DecidableEq, Repr

/-- Criticity levels of vulnerabilities (only `High` and `Critical` are
produced by this code path). -/
inductive Criticity
  | low
  | medium
  | high
  | critical
deriving DecidableEq, BEq, Repr

/-- A vulnerability as built by `Vulnerability::new(criticity, name,
description, None, None, None, None)`; the four always-`None` arguments are
omitted. -/
structure Vulnerability where
  criticity : Criticity
  name : String
  description : String
deriving DecidableEq, BEq, Repr

/-- The Critical finding of certificate.rs lines 129–146. -/
def androidDebugVuln : Vulnerability :=
  { criticity := Criticity.critical
    name := "Android Debug Certificate"
    description := "The application is signed with the Android Debug Certificate. This certificate should never be used for publishing an app." }

/-- The High finding of certificate.rs lines 164–183. -/
def expiredVuln : Vulnerability :=
  { criticity := Criticity.high
    name := "Expired certificate"
    description := "The certificate of the application has expired. You should not use applications with expired certificates since the app is not secure anymore." }

/-- Number of findings in `vs` with the given criticity and title. -/
def countFinding (c : Criticity) (n : String) (vs : List Vulnerability) : Nat :=
  vs.countP (fun v => v.criticity == c && v.name == n)

/-- The three extracted lines (certificate.rs lines 110–123): each starts
as the empty string and is overwritten by every line containing the
corresponding label, so the last matching line wins. -/
structure CertFields where
  issuer : String
  subject : String
  after : String
deriving DecidableEq, Repr

/-- One iteration of the line scan of certificate.rs lines 113–123: each
of the three labels, when contained in the line, overwrites the
corresponding field with the whole line. -/
def scanLine (fs : CertFields) (line : String) : CertFields :=
  let fs1 := if rustContains line "Issuer:" then { fs with issuer := line } else fs
  let fs2 := if rustContains line "Subject:" then { fs1 with subject := line } else fs1
  if rustContains line "Not After :" then { fs2 with after := line } else fs2

/-- The line scan of certificate.rs lines 113–123. -/
def extractFields (cmd : String) : CertFields :=
  (rustLines cmd).foldl scanLine { issuer := "", subject := "", after := "" }

/-- Date extraction from the second `": "`-token of the Not After line
(certificate.rs lines 156–162): year at [16..20] as i32, month at [0..3]
via `parse_month`, day at [4..6] as u32 falling back to [5..6]; `none`
models the panics of the original (`unwrap` on slice/parse failure). -/
def parseCertDate (a : String) : Option CertDate :=
  (strSlice a 16 20).bind fun ys =>
  (parseI32 ys).bind fun y =>
  (strSlice a 0 3).bind fun ms =>
  let m := parse_month ms
  (strSlice a 4 6).bind fun ds =>
  match parseU32 ds with
  | some d => some { year := y, month := m, day := d }
  | none =>
    (strSlice a 5 6).bind fun ds2 =>
    (parseU32 ds2).map fun d => { year := y, month := m, day := d }

/-- The expiration comparison of certificate.rs lines 164–165. -/
def isExpired (now cert : CertDate) : Bool :=
  now.year > cert.year || (now.year == cert.year && now.month > cert.month)
    || (now.year == cert.year && now.month == cert.month && now.day > cert.day)

/-- Analysis of one decoded certificate text (certificate.rs lines
110–183): returns the vulnerabilities appended to the results store in
order, paired with `true` when the original panics (`unwrap` of a missing
`": "`-token or a failed date parse).  The self-signed comparison of line
147 (`issuer.nth(1) == subject.nth(1)`, on the already-advanced issuer
iterator) compares two `Option`s without unwrapping and has no effect, so
it contributes nothing here. -/
def certificate_analysis_one (now : CertDate) (cmd : String) :
    List Vulnerability × Bool :=
  let fs := extractFields cmd
  match (rustSplit fs.issuer ": ").get? 1 with
  | none => ([], true)
  | some issuer1 =>
    let vulns := if rustContains issuer1 "Android Debug" then [androidDebugVuln] else []
    match (rustSplit fs.after ": ").get? 1 with
    | none => (vulns, true)
    | some after1 =>
      match parseCertDate after1 with
      | none => (vulns, true)
      | some cert =>
        (vulns ++ (if isExpired now cert then [expiredVuln] else []), false)

/-- A directory entry (the filesystem boundary): its file name and
`Path::extension()` result. -/
structure DirEntry where
  name : String
  ext : Option String
deriving DecidableEq, Repr

/-- Outcome of running the external `openssl` decoder on a candidate. -/
inductive DecodeResult
  | launchErr (msg : String)
  | exitErr (stderrText : String)
  | ok (stdoutText : String)
deriving DecidableEq, Repr

/-- certificate.rs lines 63–71: an entry is a certificate candidate iff its
extension is exactly `RSA` or `DSA` (case-sensitive). -/
def isCertEntry (f : DirEntry) : Bool :=
  f.ext == some "RSA" || f.ext == some "DSA"

/-- The results store plus instrumentation: the store's single certificate
slot and append-only vulnerability list (modelled from the spec: the
`results` module is outside the analyzed sources; `set_certificate`
replaces the slot, `add_vulnerability` appends), the names of files the
decoder was invoked on, and the texts passed to `set_certificate`, in
order. -/
structure AnalysisState where
  certificate : Option String
  vulnerabilities : List Vulnerability
  decoderCalls : List String
  certWrites : List String
deriving DecidableEq, Repr

/-- The state before any candidate is processed. -/
def initState : AnalysisState :=
  { certificate := none, vulnerabilities := [], decoderCalls := [], certWrites := [] }

/-- How `certificate_analysis` can finish: `ok` is `Ok(())`; `ioErr` is the
`try!(fs::read_dir(..))` error propagated to the caller (line 42);
`procExit` is `exit(Error::Unknown.into())` on a decoder failure (lines
90, 98); `panicked` is an `unwrap` panic while analyzing a decoded text.
Every outcome carries the store/instrumentation state at that point. -/
inductive AnalysisOutcome
  | ok (st : AnalysisState)
  | ioErr (msg : String) (st : AnalysisState)
  | procExit (code : Nat) (st : AnalysisState)
  | panicked (st : AnalysisState)
deriving DecidableEq, Repr

/-- The state carried by an outcome. -/
def AnalysisOutcome.state : AnalysisOutcome → AnalysisState
  | .ok st => st
  | .ioErr _ st => st
  | .procExit _ st => st
  | .panicked st => st

/-- Modelled from the spec: the numeric value of `Error::Unknown.into()` is
defined outside the analyzed sources; the spec only guarantees a defined
non-zero process status, fixed here as 1. -/
def errorUnknownCode : Nat := 1

/-- The per-entry loop of certificate.rs lines 44–185.  An `Except.error`
entry is a `ReadDir` iterator error: a warning is printed and the loop
`break`s, after which the function returns `Ok(())` (lines 45–56).  For a
certificate candidate the decoder runs; either failure mode exits the
process (lines 85–99); on success the text is stored and analyzed. -/
def analysisLoop (now : CertDate) (decode : DirEntry → DecodeResult) :
    List (Except String DirEntry) → AnalysisState → AnalysisOutcome
  | [], st => .ok st
  | .error _ :: _, st => .ok st
  | .ok f :: rest, st =>
    if isCertEntry f then
      let st1 := { st with decoderCalls := st.decoderCalls ++ [f.name] }
      match decode f with
      | .launchErr _ => .procExit errorUnknownCode st1
      | .exitErr _ => .procExit errorUnknownCode st1
      | .ok cmd =>
        let st2 := { st1 with
          certificate := some cmd
          certWrites := st1.certWrites ++ [cmd] }
        match certificate_analysis_one now cmd with
        | (vulns, panicked) =>
          let st3 := { st2 with vulnerabilities := st2.vulnerabilities ++ vulns }
          if panicked then .panicked st3 else analysisLoop now decode rest st3
    else
      analysisLoop now decode rest st

/-- `certificate_analysis` (certificate.rs lines 30–195), abstracted over
the current date, the external decoder, and the directory read: the
`try!` of line 42 propagates a failure to open the directory as an error
result; otherwise the entries are processed in order. -/
def certificate_analysis (now : CertDate) (decode : DirEntry → DecodeResult)
    (dir : Except String (List (Except String DirEntry))) : AnalysisOutcome :=
  match dir with
  | .error e => .ioErr e initState
  | .ok entries => analysisLoop now decode entries initState

/-- Modelled from the spec's words for claim C5 (the spec's description of
the Field Extractor's value computation, to be compared with the source's
`(rustSplit line ": ").get? 1`): take everything after the first `": "` on
the line, re-split that on `": "`, and take the second token. -/
def specFieldValue (line : String) : Option String :=
  match rustSplit line ": " with
  | _ :: rest₀ :: rest =>
    (rustSplit (String.intercalate ": " (rest₀ :: rest)) ": ").get? 1
  | _ => none

/-! ## Concrete decoded texts and decoders used as test inputs -/

/-- A decoded text with a benign issuer and the spec's example not-after
value `Jan  5 00:00:00 2000 GMT`. -/
def c1Text : String := "Issuer: CN=Test\nNot After : Jan  5 00:00:00 2000 GMT"

/-- A decoded text whose not-after value has the unrecognized month
abbreviation `Xyz`. -/
def c2Text : String := "Issuer: CN=Test\nNot After : Xyz 15 00:00:00 2030 GMT"

/-- A decoded text signed by the Android debug certificate, expiring far in
the future. -/
def c4DebugText : String :=
  "Issuer: C=US, O=Android, CN=Android Debug\nNot After : Jan  5 00:00:00 2999 GMT"

/-- A decoded text whose issuer is free of "Android Debug". -/
def c4CleanText : String :=
  "Issuer: C=US, O=Acme, CN=Release Key\nNot After : Jan  5 00:00:00 2999 GMT"

/-- The spec's example issuer line. -/
def c5Line : String := "Issuer: C=US, O=Android, CN=Android Debug"

/-- A decoded text with Issuer and Not After lines but no Subject line. -/
def c7NoSubject : String := "Issuer: CN=Foo\nNot After : Jan  5 00:00:00 2000 GMT"

/-- A decoded text whose not-after value is too short for the fixed-offset
date parse. -/
def c7BadDate : String := "Issuer: CN=Foo\nSubject: CN=Foo\nNot After : Jan 5"

/-- A decoder that always succeeds with empty output. -/
def okDecoder : DirEntry → DecodeResult := fun _ => DecodeResult.ok ""

/-- A decoder whose process can never be launched. -/
def launchFailDecoder : DirEntry → DecodeResult :=
  fun _ => DecodeResult.launchErr "spawn failed"

/-- First candidate's decoded text for the multi-candidate bundle. -/
def c10TextA : String := "Issuer: CN=A\nNot After : Jan  5 00:00:00 2999 GMT"

/-- Second candidate's decoded text for the multi-candidate bundle. -/
def c10TextB : String := "Issuer: CN=B\nNot After : Jan  5 00:00:00 2999 GMT"

/-- A decoder producing a different text per candidate file. -/
def c10Decode : DirEntry → DecodeResult := fun f =>
  if f.name = "CERT.RSA" then DecodeResult.ok c10TextA else DecodeResult.ok c10TextB

/-- A bundle with two certificate candidates. -/
def c10Entries : List (Except String DirEntry) :=
  [Except.ok { name := "CERT.RSA", ext := some "RSA" },
   Except.ok { name := "CERT2.DSA", ext := some "DSA" }]

/-! ## Helper lemmas -/

theorem scanLine_issuer (fs : CertFields) (l : String) :
    (scanLine fs l).issuer = if rustContains l "Issuer:" then l else fs.issuer := by
  simp only [scanLine]
  split_ifs <;> rfl

theorem scanLine_subject (fs : CertFields) (l : String) :
    (scanLine fs l).subject = if rustContains l "Subject:" then l else fs.subject := by
  simp only [scanLine]
  split_ifs <;> rfl

theorem scanLine_after (fs : CertFields) (l : String) :
    (scanLine fs l).after = if rustContains l "Not After :" then l else fs.after := by
  simp only [scanLine]
  split_ifs <;> rfl

theorem getLast?_cons_getD {α : Type} (a : α) (l : List α) (d : α) :
    ((a :: l).getLast?).getD d = (l.getLast?).getD a := by
  cases l with
  | nil => rfl
  | cons b t =>
    rw [List.getLast?_cons_cons]
    cases hgl : (b :: t).getLast? with
    | none => simp at hgl
    | some x => rfl

/-- The last line containing `needle` wins in the scan (with the initial
field value as default). -/
theorem foldl_scanLine_proj (proj : CertFields → String) (needle : String)
    (hproj : ∀ fs l, proj (scanLine fs l) = if rustContains l needle then l else proj fs)
    (ls : List String) :
    ∀ fs : CertFields,
      proj (ls.foldl scanLine fs) =
        ((ls.filter fun l => rustContains l needle).getLast?).getD (proj fs) := by
  induction ls with
  | nil => intro fs; rfl
  | cons l ls ih =>
    intro fs
    rw [List.foldl_cons, ih, List.filter_cons, hproj]
    by_cases h : rustContains l needle
    · simp [h, getLast?_cons_getD]
    · simp [h]

theorem extractFields_issuer (cmd : String) :
    (extractFields cmd).issuer =
      (((rustLines cmd).filter fun l => rustContains l "Issuer:").getLast?).getD "" := by
  unfold extractFields
  rw [foldl_scanLine_proj CertFields.issuer "Issuer:" scanLine_issuer]

theorem extractFields_subject (cmd : String) :
    (extractFields cmd).subject =
      (((rustLines cmd).filter fun l => rustContains l "Subject:").getLast?).getD "" := by
  unfold extractFields
  rw [foldl_scanLine_proj CertFields.subject "Subject:" scanLine_subject]

theorem extractFields_after (cmd : String) :
    (extractFields cmd).after =
      (((rustLines cmd).filter fun l => rustContains l "Not After :").getLast?).getD "" := by
  unfold extractFields
  rw [foldl_scanLine_proj CertFields.after "Not After :" scanLine_after]

/-- Evaluation of the one-candidate analysis when every `unwrap` succeeds. -/
theorem analysisOne_eq (now : CertDate) (cmd issuer1 after1 : String) (cert : CertDate)
    (hi : (rustSplit (extractFields cmd).issuer ": ").get? 1 = some issuer1)
    (ha : (rustSplit (extractFields cmd).after ": ").get? 1 = some after1)
    (hp : parseCertDate after1 = some cert) :
    certificate_analysis_one now cmd =
      ((if rustContains issuer1 "Android Debug" then [androidDebugVuln] else []) ++
        (if isExpired now cert then [expiredVuln] else []), false) := by
  simp only [certificate_analysis_one, hi, ha, hp]

/-- The Boolean expiration comparison, as a proposition. -/
theorem isExpired_iff (now cert : CertDate) :
    isExpired now cert = true ↔
      (now.year > cert.year ∨ (now.year = cert.year ∧ now.month > cert.month) ∨
        (now.year = cert.year ∧ now.month = cert.month ∧ now.day > cert.day)) := by
  simp [isExpired, Bool.or_eq_true, Bool.and_eq_true, decide_eq_true_eq, beq_iff_eq,
    or_assoc, and_assoc]

theorem countFinding_append (c : Criticity) (n : String) (l₁ l₂ : List Vulnerability) :
    countFinding c n (l₁ ++ l₂) = countFinding c n l₁ + countFinding c n l₂ := by
  unfold countFinding
  rw [List.countP_append]

/-- The debug-check part of the analysis output, with the rest of the
output free of Critical "Android Debug Certificate" findings. -/
theorem analysisOne_fst (now : CertDate) (cmd issuer1 : String)
    (hi : (rustSplit (extractFields cmd).issuer ": ").get? 1 = some issuer1) :
    ∃ rest : List Vulnerability,
      (certificate_analysis_one now cmd).1 =
        (if rustContains issuer1 "Android Debug" then [androidDebugVuln] else []) ++ rest ∧
      countFinding Criticity.critical "Android Debug Certificate" rest = 0 := by
  unfold certificate_analysis_one
  simp only [hi]
  cases ha : (rustSplit (extractFields cmd).after ": ").get? 1 with
  | none =>
    simp only [ha]
    exact ⟨[], by simp, rfl⟩
  | some after1 =>
    simp only [ha]
    cases hp : parseCertDate after1 with
    | none =>
      simp only [hp]
      exact ⟨[], by simp, rfl⟩
    | some cert =>
      simp only [hp]
      refine ⟨if isExpired now cert then [expiredVuln] else [], rfl, ?_⟩
      by_cases hE : isExpired now cert
      · simp only [hE, if_true]
        decide
      · simp only [hE, if_false]
        rfl

/-! ## Claims -/

/-- C1: the Expiration check reports a certificate as expired exactly when
`year_now > cert_year`, or `year_now = cert_year ∧ month_now > cert_month`,
or `year_now = cert_year ∧ month_now = cert_month ∧ day_now > cert_day`;
for not-after value `Jan  5 00:00:00 2000 GMT`, a current date
lexicographically after that date yields exactly one High finding titled
"Expired certificate" and a current date before it yields none. -/
theorem C1_expiration_check :
    (∀ (now : CertDate) (cmd issuer1 after1 : String) (cert : CertDate)
        (vulns : List Vulnerability),
      (rustSplit (extractFields cmd).issuer ": ").get? 1 = some issuer1 →
      (rustSplit (extractFields cmd).after ": ").get? 1 = some after1 →
      parseCertDate after1 = some cert →
      certificate_analysis_one now cmd = (vulns, false) →
      countFinding Criticity.high "Expired certificate" vulns =
        if now.year > cert.year ∨ (now.year = cert.year ∧ now.month > cert.month) ∨
            (now.year = cert.year ∧ now.month = cert.month ∧ now.day > cert.day)
        then 1 else 0)
    ∧ (∀ (y : Int) (m d : Nat),
      ((y > 2000 ∨ (y = 2000 ∧ m > 1) ∨ (y = 2000 ∧ m = 1 ∧ d > 5)) →
        certificate_analysis_one { year := y, month := m, day := d } c1Text =
          ([expiredVuln], false)) ∧
      ((y < 2000 ∨ (y = 2000 ∧ m < 1) ∨ (y = 2000 ∧ m = 1 ∧ d < 5)) →
        certificate_analysis_one { year := y, month := m, day := d } c1Text =
          ([], false))) := by
  constructor
  · intro now cmd issuer1 after1 cert vulns hi ha hp hrun
    have heq := analysisOne_eq now cmd issuer1 after1 cert hi ha hp
    rw [hrun] at heq
    have hv : vulns =
        (if rustContains issuer1 "Android Debug" then [androidDebugVuln] else []) ++
          (if isExpired now cert then [expiredVuln] else []) :=
      congrArg Prod.fst heq
    rw [hv, countFinding_append]
    have h0 : countFinding Criticity.high "Expired certificate"
        (if rustContains issuer1 "Android Debug" then [androidDebugVuln] else []) = 0 := by
      by_cases hc : rustContains issuer1 "Android Debug"
      · simp only [hc, if_true]
        decide
      · simp only [hc, if_false]
        rfl
    rw [h0]
    by_cases hE : now.year > cert.year ∨ (now.year = cert.year ∧ now.month > cert.month) ∨
        (now.year = cert.year ∧ now.month = cert.month ∧ now.day > cert.day)
    · rw [if_pos ((isExpired_iff now cert).mpr hE), if_pos hE]
      decide
    · rw [if_neg (fun hcon => hE ((isExpired_iff now cert).mp hcon)), if_neg hE]
      rfl
  · intro y m d
    have heq := analysisOne_eq { year := y, month := m, day := d } c1Text "CN=Test"
      "Jan  5 00:00:00 2000 GMT" { year := 2000, month := 1, day := 5 }
      (by decide) (by decide) (by decide)
    have hdbg : rustContains "CN=Test" "Android Debug" = false := by decide
    constructor
    · intro h
      have hE : isExpired { year := y, month := m, day := d }
          { year := 2000, month := 1, day := 5 } = true :=
        (isExpired_iff _ _).mpr h
      rw [heq, hdbg, hE]
      rfl
    · intro h
      have hE : isExpired { year := y, month := m, day := d }
          { year := 2000, month := 1, day := 5 } = false := by
        rw [Bool.eq_false_iff]
        intro hcon
        have hP := (isExpired_iff _ _).mp hcon
        simp only at hP
        omega
      rw [heq, hdbg, hE]
      rfl

/-- Witness for C1: at current date 2001-01-01 and the `Jan  5 00:00:00
2000 GMT` sample, the analysis emits exactly one High "Expired certificate"
finding. -/
theorem C1_expiration_check_witness :
    countFinding Criticity.high "Expired certificate" [expiredVuln] = 1 := by
  have h := C1_expiration_check.1 { year := 2001, month := 1, day := 1 } c1Text
    "CN=Test" "Jan  5 00:00:00 2000 GMT" { year := 2000, month := 1, day := 5 }
    [expiredVuln] (by decide) (by decide) (by decide) (by decide)
  rw [h, if_pos]
  exact Or.inl (by norm_num)

/-- C2 counterexample: the claim "month=0 never causes the Expired
certificate finding to fire when it would not fire for a correctly parsed
month" is false.  `Xyz` parses to month 0; at current date 2030-01-01 the
analysis of a certificate with not-after `Xyz 15 00:00:00 2030 GMT` fires
the finding, although with a correctly parsed month (e.g. December, or
January) the comparison would not report expiration. -/
theorem C2_month_zero_counterexample :
    parse_month "Xyz" = 0 ∧
    certificate_analysis_one { year := 2030, month := 1, day := 1 } c2Text =
      ([expiredVuln], false) ∧
    isExpired { year := 2030, month := 1, day := 1 }
      { year := 2030, month := 12, day := 15 } = false ∧
    isExpired { year := 2030, month := 1, day := 1 }
      { year := 2030, month := 1, day := 15 } = false := by
  refine ⟨by decide, by decide, by decide, by decide⟩

/-- C2 amended: unrecognized month abbreviations parse to month 0, and
under the comparison semantics a certificate month of 0 makes the Expired
certificate finding fire whenever the current year is at least the
certificate year (the current month is always ≥ 1 > 0), so an unrecognized
month CAN falsely report expiration. -/
theorem C2_month_zero_amended :
    (∀ s : String, s ≠ "Jan" → s ≠ "Feb" → s ≠ "Mar" → s ≠ "Apr" → s ≠ "May" →
      s ≠ "Jun" → s ≠ "Jul" → s ≠ "Aug" → s ≠ "Sep" → s ≠ "Oct" → s ≠ "Nov" →
      s ≠ "Dec" → parse_month s = 0)
    ∧ (∀ (now : CertDate) (cmd issuer1 after1 : String) (cert : CertDate)
        (vulns : List Vulnerability),
      (rustSplit (extractFields cmd).issuer ": ").get? 1 = some issuer1 →
      (rustSplit (extractFields cmd).after ": ").get? 1 = some after1 →
      parseCertDate after1 = some cert →
      certificate_analysis_one now cmd = (vulns, false) →
      cert.month = 0 → cert.year ≤ now.year → 1 ≤ now.month →
      countFinding Criticity.high "Expired certificate" vulns = 1) := by
  constructor
  · intro s h1 h2 h3 h4 h5 h6 h7 h8 h9 h10 h11 h12
    unfold parse_month
    split <;> simp_all
  · intro now cmd issuer1 after1 cert vulns hi ha hp hrun hm hy hmn
    have heq := analysisOne_eq now cmd issuer1 after1 cert hi ha hp
    rw [hrun] at heq
    have hv : vulns =
        (if rustContains issuer1 "Android Debug" then [androidDebugVuln] else []) ++
          (if isExpired now cert then [expiredVuln] else []) :=
      congrArg Prod.fst heq
    have hE : isExpired now cert = true := by
      rw [isExpired_iff]
      omega
    rw [hv, hE, countFinding_append]
    have h0 : countFinding Criticity.high "Expired certificate"
        (if rustContains issuer1 "Android Debug" then [androidDebugVuln] else []) = 0 := by
      by_cases hc : rustContains issuer1 "Android Debug"
      · simp only [hc, if_true]
        decide
      · simp only [hc, if_false]
        rfl
    rw [h0]
    rfl

/-- Witness for C2 amended: the month-0 certificate of `c2Text` fires the
Expired certificate finding at current date 2030-01-01. -/
theorem C2_month_zero_amended_witness :
    countFinding Criticity.high "Expired certificate"
      (certificate_analysis_one { year := 2030, month := 1, day := 1 } c2Text).1 = 1 := by
  have hrun : certificate_analysis_one { year := 2030, month := 1, day := 1 } c2Text =
      ([expiredVuln], false) := by decide
  rw [hrun]
  exact C2_month_zero_amended.2 { year := 2030, month := 1, day := 1 } c2Text
    "CN=Test" "Xyz 15 00:00:00 2030 GMT" { year := 2030, month := 0, day := 15 }
    [expiredVuln] (by decide) (by decide) (by decide) hrun (by decide) (by decide)
    (by decide)

/-- C3: the Date Parser extracts the year from offsets 16–20 as an
integer, the month from offsets 0–3 via the Jan=1..Dec=12 table
(unrecognized → 0), and the day from offsets 4–6 as an integer, falling
back to offset 5–6 alone when that parse fails; single-digit days
(`Jan  5 ...`) and double-digit days (`Jan 15 ...`) both yield the correct
day integer. -/
theorem C3_date_offsets :
    parseCertDate "Jan  5 00:00:00 2000 GMT" =
      some { year := 2000, month := 1, day := 5 } ∧
    parseCertDate "Jan 15 00:00:00 2000 GMT" =
      some { year := 2000, month := 1, day := 15 } ∧
    parseCertDate "Dec 31 23:59:59 1999 GMT" =
      some { year := 1999, month := 12, day := 31 } ∧
    parseCertDate "Xyz 15 00:00:00 2030 GMT" =
      some { year := 2030, month := 0, day := 15 } ∧
    (∀ (a : String) (cert : CertDate), parseCertDate a = some cert →
      ((strSlice a 16 20).bind parseI32 = some cert.year ∧
       (strSlice a 0 3).map parse_month = some cert.month ∧
       ((strSlice a 4 6).bind parseU32 = some cert.day ∨
        ((strSlice a 4 6).bind parseU32 = none ∧
         (strSlice a 5 6).bind parseU32 = some cert.day)))) := by
  refine ⟨by decide, by decide, by decide, by decide, ?_⟩
  intro a cert h
  unfold parseCertDate at h
  cases h16 : strSlice a 16 20 with
  | none => rw [h16] at h; simp at h
  | some ys =>
    rw [h16, Option.some_bind] at h
    cases hy : parseI32 ys with
    | none => rw [hy] at h; simp at h
    | some y =>
      rw [hy, Option.some_bind] at h
      cases h03 : strSlice a 0 3 with
      | none => rw [h03] at h; simp at h
      | some ms =>
        rw [h03, Option.some_bind] at h
        simp only at h
        cases h46 : strSlice a 4 6 with
        | none => rw [h46] at h; simp at h
        | some ds =>
          rw [h46, Option.some_bind] at h
          cases hd : parseU32 ds with
          | some d =>
            rw [hd] at h
            have hc : cert = { year := y, month := parse_month ms, day := d } :=
              (Option.some.injEq _ _).mp h.symm
            subst hc
            exact ⟨by simp [hy], by simp, Or.inl (by simp [hd])⟩
          | none =>
            rw [hd] at h
            cases h56 : strSlice a 5 6 with
            | none => rw [h56] at h; simp at h
            | some ds2 =>
              rw [h56, Option.some_bind] at h
              cases hd2 : parseU32 ds2 with
              | none => rw [hd2] at h; simp at h
              | some d =>
                rw [hd2] at h
                have hc : cert = { year := y, month := parse_month ms, day := d } :=
                  (Option.some.injEq _ _).mp h.symm
                subst hc
                exact ⟨by simp [hy], by simp,
                  Or.inr ⟨by simp [hd], by simp [hd2]⟩⟩

/-- Witness for C3's general clause at the single-digit-day sample. -/
theorem C3_date_offsets_witness :
    (strSlice "Jan  5 00:00:00 2000 GMT" 16 20).bind parseI32 = some (2000 : Int) ∧
    (strSlice "Jan  5 00:00:00 2000 GMT" 0 3).map parse_month = some 1 ∧
    ((strSlice "Jan  5 00:00:00 2000 GMT" 4 6).bind parseU32 = some 5 ∨
     ((strSlice "Jan  5 00:00:00 2000 GMT" 4 6).bind parseU32 = none ∧
      (strSlice "Jan  5 00:00:00 2000 GMT" 5 6).bind parseU32 = some 5)) :=
  C3_date_offsets.2.2.2.2 "Jan  5 00:00:00 2000 GMT"
    { year := 2000, month := 1, day := 5 } (by decide)

/-- C4: whenever the second `": "`-token of the extracted Issuer line
exists, the analysis emits exactly one Critical finding titled "Android
Debug Certificate" if that token contains the substring "Android Debug",
and no such finding otherwise (whether or not a later stage panics, since
the debug check runs before the date parse). -/
theorem C4_debug_check (now : CertDate) (cmd issuer1 : String)
    (vulns : List Vulnerability) (b : Bool)
    (hi : (rustSplit (extractFields cmd).issuer ": ").get? 1 = some issuer1)
    (hrun : certificate_analysis_one now cmd = (vulns, b)) :
    countFinding Criticity.critical "Android Debug Certificate" vulns =
      if rustContains issuer1 "Android Debug" then 1 else 0 := by
  obtain ⟨rest, hfst, hrest⟩ := analysisOne_fst now cmd issuer1 hi
  rw [hrun] at hfst
  simp only at hfst
  rw [hfst, countFinding_append, hrest]
  by_cases hc : rustContains issuer1 "Android Debug"
  · simp only [hc, if_true]
    decide
  · simp only [hc, if_false]
    rfl

/-- Witness for C4: the debug-signed sample yields exactly one Critical
"Android Debug Certificate" finding; the cleanly-signed sample yields
none. -/
theorem C4_debug_check_witness :
    countFinding Criticity.critical "Android Debug Certificate"
      (certificate_analysis_one { year := 2025, month := 1, day := 1 } c4DebugText).1 = 1 ∧
    countFinding Criticity.critical "Android Debug Certificate"
      (certificate_analysis_one { year := 2025, month := 1, day := 1 } c4CleanText).1 = 0 := by
  have h1run : certificate_analysis_one { year := 2025, month := 1, day := 1 } c4DebugText =
      ([androidDebugVuln], false) := by decide
  have h2run : certificate_analysis_one { year := 2025, month := 1, day := 1 } c4CleanText =
      ([], false) := by decide
  constructor
  · rw [h1run]
    have h := C4_debug_check { year := 2025, month := 1, day := 1 } c4DebugText
      "C=US, O=Android, CN=Android Debug" [androidDebugVuln] false (by decide) h1run
    rw [h]
    decide
  · rw [h2run]
    have h := C4_debug_check { year := 2025, month := 1, day := 1 } c4CleanText
      "C=US, O=Acme, CN=Release Key" [] false (by decide) h2run
    rw [h]
    decide

/-- C5 counterexample: on the spec's own example line the source's
extraction (second token of splitting the whole line on `": "`) yields the
issuer DN, while the claim's two-level rule (everything after the first
`": "`, re-split, second token taken) yields nothing at all — so the
claimed value computation does not match the code. -/
theorem C5_field_extractor_counterexample :
    (rustSplit (extractFields c5Line).issuer ": ").get? 1 =
      some "C=US, O=Android, CN=Android Debug" ∧
    specFieldValue (extractFields c5Line).issuer = none := by
  refine ⟨by decide, by decide⟩

/-- C5 amended: the Field Extractor scans the decoded text line by line
and for each of the three labels the last matching line wins; the value
used by the analysis is the second token of splitting the whole matching
line on `": "` (so the label prefix before the first `": "` is discarded,
and a second `": "` on the line truncates the value). -/
theorem C5_field_extractor_amended :
    (∀ cmd : String,
      (extractFields cmd).issuer =
        (((rustLines cmd).filter fun l => rustContains l "Issuer:").getLast?).getD "" ∧
      (extractFields cmd).subject =
        (((rustLines cmd).filter fun l => rustContains l "Subject:").getLast?).getD "" ∧
      (extractFields cmd).after =
        (((rustLines cmd).filter fun l => rustContains l "Not After :").getLast?).getD "")
    ∧ (rustSplit c5Line ": ").get? 1 = some "C=US, O=Android, CN=Android Debug"
    ∧ (rustSplit "Issuer: C=US: O=Android" ": ").get? 1 = some "C=US" := by
  exact ⟨fun cmd => ⟨extractFields_issuer cmd, extractFields_subject cmd,
    extractFields_after cmd⟩, by decide, by decide⟩

/-- Every decoder invocation recorded by the loop comes from the initial
state or from a certificate candidate among the entries. -/
theorem analysisLoop_decoderCalls (now : CertDate) (decode : DirEntry → DecodeResult) :
    ∀ (entries : List (Except String DirEntry)) (st : AnalysisState) (x : String),
      x ∈ (analysisLoop now decode entries st).state.decoderCalls →
      x ∈ st.decoderCalls ∨
        ∃ f : DirEntry, Except.ok f ∈ entries ∧ f.name = x ∧ isCertEntry f = true := by
  intro entries
  induction entries with
  | nil => intro st x hx; exact Or.inl hx
  | cons e rest ih =>
    intro st x hx
    cases e with
    | error msg => exact Or.inl hx
    | ok f =>
      simp only [analysisLoop] at hx
      by_cases hc : isCertEntry f
      · simp only [hc, if_true] at hx
        have hname : x ∈ st.decoderCalls ++ [f.name] →
            x ∈ st.decoderCalls ∨
              ∃ g : DirEntry, Except.ok g ∈ Except.ok f :: rest ∧ g.name = x ∧
                isCertEntry g = true := by
          intro hmem
          rcases List.mem_append.mp hmem with hl | hr
          · exact Or.inl hl
          · have : x = f.name := List.mem_singleton.mp hr
            exact Or.inr ⟨f, List.mem_cons_self _ _, this.symm, hc⟩
        cases hdec : decode f with
        | launchErr m =>
          rw [hdec] at hx
          exact hname hx
        | exitErr s =>
          rw [hdec] at hx
          exact hname hx
        | ok cmd =>
          simp only [hdec] at hx
          cases hpk : (certificate_analysis_one now cmd).2 with
          | true =>
            rw [if_pos hpk] at hx
            exact hname hx
          | false =>
            rw [if_neg (by simp [hpk])] at hx
            rcases ih _ x hx with hl | ⟨g, hg, hgx, hgc⟩
            · exact hname hl
            · exact Or.inr ⟨g, List.mem_cons_of_mem _ hg, hgx, hgc⟩
      · simp only [hc, if_false] at hx
        rcases ih _ x hx with hl | ⟨g, hg, hgx, hgc⟩
        · exact Or.inl hl
        · exact Or.inr ⟨g, List.mem_cons_of_mem _ hg, hgx, hgc⟩

/-- A directory with no certificate candidate leaves the state untouched
and the loop ends normally. -/
theorem analysisLoop_no_cert (now : CertDate) (decode : DirEntry → DecodeResult) :
    ∀ (entries : List (Except String DirEntry)) (st : AnalysisState),
      (∀ f : DirEntry, Except.ok f ∈ entries → isCertEntry f = false) →
      analysisLoop now decode entries st = .ok st := by
  intro entries
  induction entries with
  | nil => intro st _; rfl
  | cons e rest ih =>
    intro st h
    cases e with
    | error msg => rfl
    | ok f =>
      have hf : isCertEntry f = false := h f (List.mem_cons_self _ _)
      simp only [analysisLoop, hf, Bool.false_eq_true, if_false]
      exact ih st fun g hg => h g (List.mem_cons_of_mem _ hg)

/-- C6: the decoder is only ever invoked on directory entries whose
extension equals `RSA` or `DSA` (case-sensitively); and a bundle with no
such file produces zero decoder invocations, zero findings, and no stored
certificate text (the final state is the initial state). -/
theorem C6_extension_filter :
    (∀ (now : CertDate) (decode : DirEntry → DecodeResult)
        (entries : List (Except String DirEntry)) (x : String),
      x ∈ (certificate_analysis now decode (.ok entries)).state.decoderCalls →
      ∃ f : DirEntry, Except.ok f ∈ entries ∧ f.name = x ∧ isCertEntry f = true)
    ∧ (∀ (now : CertDate) (decode : DirEntry → DecodeResult)
        (entries : List (Except String DirEntry)),
      (∀ f : DirEntry, Except.ok f ∈ entries → isCertEntry f = false) →
      certificate_analysis now decode (.ok entries) = .ok initState) := by
  constructor
  · intro now decode entries x hx
    rcases analysisLoop_decoderCalls now decode entries initState x hx with hl | hr
    · exact absurd hl (List.not_mem_nil x)
    · exact hr
  · intro now decode entries h
    exact analysisLoop_no_cert now decode entries initState h

/-- Witness for C6: a bundle with a `txt`-extension file and an
extensionless file yields the untouched initial state. -/
theorem C6_extension_filter_witness :
    certificate_analysis { year := 2025, month := 1, day := 1 } okDecoder
      (.ok [Except.ok { name := "cert.txt", ext := some "txt" },
            Except.ok { name := "noext", ext := none }]) = .ok initState := by
  refine C6_extension_filter.2 _ _ _ ?_
  intro f hf
  rcases List.mem_cons.mp hf with h | h
  · cases Except.ok.injEq .. ▸ h
    rfl
  · rcases List.mem_cons.mp h with h2 | h2
    · cases Except.ok.injEq .. ▸ h2
      rfl
    · exact absurd h2 (List.not_mem_nil _)

/-- C7 counterexample: a decoded text with no Subject line does NOT crash
the analysis — the self-signed comparison compares two `Option`s without
unwrapping — so "an expected label (Issuer, Subject, or Not After) absent
⇒ crash" is false for Subject.  Here the extracted subject is empty, yet
the analysis completes normally (no panic) and even emits its expiration
finding. -/
theorem C7_crash_counterexample :
    (extractFields c7NoSubject).subject = "" ∧
    certificate_analysis_one { year := 2025, month := 1, day := 1 } c7NoSubject =
      ([expiredVuln], false) := by
  refine ⟨by decide, by decide⟩

/-- C7 amended: when the Issuer label is absent, or the Not After label is
absent, or the not-after value is unparseable at the fixed offsets, the
original program panics (crashes); an absent Subject label alone does not
crash. -/
theorem C7_crash_amended :
    (∀ (now : CertDate) (cmd : String),
      (∀ l ∈ rustLines cmd, rustContains l "Issuer:" = false) →
      (certificate_analysis_one now cmd).2 = true)
    ∧ (∀ (now : CertDate) (cmd issuer1 : String),
      (rustSplit (extractFields cmd).issuer ": ").get? 1 = some issuer1 →
      (∀ l ∈ rustLines cmd, rustContains l "Not After :" = false) →
      (certificate_analysis_one now cmd).2 = true)
    ∧ (∀ (now : CertDate) (cmd issuer1 after1 : String),
      (rustSplit (extractFields cmd).issuer ": ").get? 1 = some issuer1 →
      (rustSplit (extractFields cmd).after ": ").get? 1 = some after1 →
      parseCertDate after1 = none →
      (certificate_analysis_one now cmd).2 = true) := by
  refine ⟨?_, ?_, ?_⟩
  · intro now cmd hno
    have hIss : (extractFields cmd).issuer = "" := by
      rw [extractFields_issuer, List.filter_eq_nil_iff.mpr (by simpa using hno)]
      rfl
    simp only [certificate_analysis_one, hIss,
      show (rustSplit "" ": ").get? 1 = none from by decide]
  · intro now cmd issuer1 hi hno
    have hAft : (extractFields cmd).after = "" := by
      rw [extractFields_after, List.filter_eq_nil_iff.mpr (by simpa using hno)]
      rfl
    simp only [certificate_analysis_one, hi, hAft,
      show (rustSplit "" ": ").get? 1 = none from by decide]
  · intro now cmd issuer1 after1 hi ha hp
    simp only [certificate_analysis_one, hi, ha, hp]

/-- Witness for C7 amended: a label-free text, a text with only an Issuer
line, and a text with an unparseable not-after value all panic. -/
theorem C7_crash_amended_witness :
    (certificate_analysis_one { year := 2025, month := 1, day := 1 }
      "no labels here").2 = true ∧
    (certificate_analysis_one { year := 2025, month := 1, day := 1 }
      "Issuer: CN=Foo").2 = true ∧
    (certificate_analysis_one { year := 2025, month := 1, day := 1 }
      c7BadDate).2 = true := by
  refine ⟨C7_crash_amended.1 _ "no labels here" (by decide),
    C7_crash_amended.2.1 _ "Issuer: CN=Foo" "CN=Foo" (by decide) (by decide),
    C7_crash_amended.2.2 _ c7BadDate "CN=Foo" "Jan 5" (by decide) (by decide)
      (by decide)⟩

/-- Reaching a certificate candidate whose decode fails (either mode)
exits the process at once, whatever follows in the directory. -/
theorem analysisLoop_decode_failure (now : CertDate) (decode : DirEntry → DecodeResult)
    (f : DirEntry) (rest : List (Except String DirEntry))
    (hf : isCertEntry f = true)
    (hfail : (∃ m, decode f = DecodeResult.launchErr m) ∨
             (∃ s, decode f = DecodeResult.exitErr s)) :
    ∀ (pre : List (Except String DirEntry)) (st : AnalysisState),
      (∀ e ∈ pre, ∃ g : DirEntry, e = Except.ok g ∧ isCertEntry g = false) →
      analysisLoop now decode (pre ++ Except.ok f :: rest) st =
        .procExit errorUnknownCode
          { st with decoderCalls := st.decoderCalls ++ [f.name] } := by
  intro pre
  induction pre with
  | nil =>
    intro st _
    rw [List.nil_append]
    simp only [analysisLoop, hf, if_true]
    rcases hfail with ⟨m, hm⟩ | ⟨s, hs⟩
    · rw [hm]
    · rw [hs]
  | cons e pre ih =>
    intro st hpre
    obtain ⟨g, rfl, hg⟩ := hpre e (List.mem_cons_self _ _)
    rw [List.cons_append]
    simp only [analysisLoop, hg, Bool.false_eq_true, if_false]
    exact ih st fun e he => hpre e (List.mem_cons_of_mem _ he)

/-- C8: both decoder failure modes — launch failure and non-zero exit —
terminate the whole analysis process immediately with the defined non-zero
status, regardless of the remaining directory entries; no certificate text
is stored and no finding survives for the failed candidate. -/
theorem C8_decoder_failure_fatal (now : CertDate) (decode : DirEntry → DecodeResult)
    (pre rest : List (Except String DirEntry)) (f : DirEntry)
    (hpre : ∀ e ∈ pre, ∃ g : DirEntry, e = Except.ok g ∧ isCertEntry g = false)
    (hf : isCertEntry f = true)
    (hfail : (∃ m, decode f = DecodeResult.launchErr m) ∨
             (∃ s, decode f = DecodeResult.exitErr s)) :
    certificate_analysis now decode (.ok (pre ++ Except.ok f :: rest)) =
      .procExit errorUnknownCode { initState with decoderCalls := [f.name] } ∧
    errorUnknownCode ≠ 0 := by
  constructor
  · show analysisLoop now decode (pre ++ Except.ok f :: rest) initState =
      AnalysisOutcome.procExit errorUnknownCode { initState with decoderCalls := [f.name] }
    rw [analysisLoop_decode_failure now decode f rest hf hfail pre initState hpre]
    rfl
  · decide

/-- Witness for C8: a single RSA candidate whose decoder cannot launch
aborts the run with the non-zero exit code. -/
theorem C8_decoder_failure_fatal_witness :
    certificate_analysis { year := 2025, month := 1, day := 1 } launchFailDecoder
        (.ok [Except.ok { name := "CERT.RSA", ext := some "RSA" }]) =
      .procExit errorUnknownCode { initState with decoderCalls := ["CERT.RSA"] } ∧
    errorUnknownCode ≠ 0 :=
  C8_decoder_failure_fatal { year := 2025, month := 1, day := 1 } launchFailDecoder
    [] [] { name := "CERT.RSA", ext := some "RSA" }
    (fun e he => absurd he (List.not_mem_nil e)) (by decide)
    (Or.inl ⟨"spawn failed", rfl⟩)

/-- Hitting a `ReadDir` iterator error truncates the loop: the run behaves
exactly as if the directory had ended just before the failing entry. -/
theorem analysisLoop_error_entry (now : CertDate) (decode : DirEntry → DecodeResult)
    (e : String) (rest : List (Except String DirEntry)) :
    ∀ (pre : List (Except String DirEntry)) (st : AnalysisState),
      analysisLoop now decode (pre ++ Except.error e :: rest) st =
        analysisLoop now decode pre st := by
  intro pre
  induction pre with
  | nil => intro st; rfl
  | cons x pre ih =>
    intro st
    cases x with
    | error m => rfl
    | ok f =>
      rw [List.cons_append]
      simp only [analysisLoop]
      by_cases hc : isCertEntry f
      · simp only [hc, if_true]
        cases hdec : decode f with
        | launchErr m => rfl
        | exitErr s => rfl
        | ok cmd =>
          cases hpk : (certificate_analysis_one now cmd).2 with
          | true => simp only [hpk, if_true]
          | false =>
            simp only [hpk, Bool.false_eq_true, if_false]
            exact ih _
      · simp only [hc, Bool.false_eq_true, if_false]
        exact ih st

/-- C9 counterexample: a failure to open the signing-metadata directory is
propagated by `try!` as an error result — the analysis is aborted with an
error and no warning-and-continue happens, contradicting the claim that
every directory-read failure is non-fatal warning-plus-truncation. -/
theorem C9_dir_error_counterexample :
    certificate_analysis { year := 2025, month := 1, day := 1 } okDecoder
        (Except.error "permission denied") =
      AnalysisOutcome.ioErr "permission denied" initState ∧
    certificate_analysis { year := 2025, month := 1, day := 1 } okDecoder
        (Except.error "permission denied") ≠ AnalysisOutcome.ok initState := by
  exact ⟨rfl, by decide⟩

/-- C9 amended: a failure while reading an individual directory entry is
non-fatal — the run behaves exactly as if enumeration had ended there (in
particular an immediate entry error returns `Ok` with the untouched
state) — while a failure to open the directory itself is propagated to the
caller as an error result. -/
theorem C9_dir_error_amended :
    (∀ (now : CertDate) (decode : DirEntry → DecodeResult) (e : String)
        (pre rest : List (Except String DirEntry)),
      certificate_analysis now decode (.ok (pre ++ Except.error e :: rest)) =
        certificate_analysis now decode (.ok pre))
    ∧ (∀ (now : CertDate) (decode : DirEntry → DecodeResult) (e : String)
        (rest : List (Except String DirEntry)),
      certificate_analysis now decode (.ok (Except.error e :: rest)) = .ok initState)
    ∧ (∀ (now : CertDate) (decode : DirEntry → DecodeResult) (e : String),
      certificate_analysis now decode (.error e) = .ioErr e initState) := by
  refine ⟨?_, ?_, ?_⟩
  · intro now decode e pre rest
    exact analysisLoop_error_entry now decode e rest pre initState
  · intro now decode e rest
    rfl
  · intro now decode e
    rfl

/-- C10 counterexample: a bundle with two certificate candidates performs
two `set_certificate` writes in one analyzed bundle — not exactly one —
with the last candidate's text ending up stored. -/
theorem C10_write_counterexample :
    (certificate_analysis { year := 2025, month := 1, day := 1 } c10Decode
        (.ok c10Entries)).state.certWrites = [c10TextA, c10TextB] ∧
    (certificate_analysis { year := 2025, month := 1, day := 1 } c10Decode
        (.ok c10Entries)).state.certificate = some c10TextB := by
  refine ⟨by decide, by decide⟩

/-- The store's certificate slot always holds the last write. -/
theorem analysisLoop_cert_last (now : CertDate) (decode : DirEntry → DecodeResult) :
    ∀ (entries : List (Except String DirEntry)) (st : AnalysisState),
      st.certificate = st.certWrites.getLast? →
      (analysisLoop now decode entries st).state.certificate =
        (analysisLoop now decode entries st).state.certWrites.getLast? := by
  intro entries
  induction entries with
  | nil => intro st h; exact h
  | cons e rest ih =>
    intro st h
    cases e with
    | error m => exact h
    | ok f =>
      simp only [analysisLoop]
      by_cases hc : isCertEntry f
      · simp only [hc, if_true]
        cases hdec : decode f with
        | launchErr m => exact h
        | exitErr s => exact h
        | ok cmd =>
          have h3 : (some cmd : Option String) =
              (st.certWrites ++ [cmd]).getLast? := (List.getLast?_concat _).symm
          cases hpk : (certificate_analysis_one now cmd).2 with
          | true =>
            simp only [hpk, if_true]
            exact h3
          | false =>
            simp only [hpk, Bool.false_eq_true, if_false]
            exact ih _ h3
      · simp only [hc, Bool.false_eq_true, if_false]
        exact ih st h

/-- Completed (`Ok`) runs perform exactly one write per decoder
invocation. -/
theorem analysisLoop_writes_calls (now : CertDate) (decode : DirEntry → DecodeResult) :
    ∀ (entries : List (Except String DirEntry)) (st st' : AnalysisState),
      analysisLoop now decode entries st = .ok st' →
      st.certWrites.length = st.decoderCalls.length →
      st'.certWrites.length = st'.decoderCalls.length := by
  intro entries
  induction entries with
  | nil =>
    intro st st' hrun h
    cases hrun
    exact h
  | cons e rest ih =>
    intro st st' hrun h
    cases e with
    | error m =>
      cases hrun
      exact h
    | ok f =>
      simp only [analysisLoop] at hrun
      by_cases hc : isCertEntry f
      · simp only [hc, if_true] at hrun
        cases hdec : decode f with
        | launchErr m => rw [hdec] at hrun; cases hrun
        | exitErr s => rw [hdec] at hrun; cases hrun
        | ok cmd =>
          simp only [hdec] at hrun
          cases hpk : (certificate_analysis_one now cmd).2 with
          | true => rw [if_pos hpk] at hrun; cases hrun
          | false =>
            rw [if_neg (by simp [hpk])] at hrun
            refine ih _ _ hrun ?_
            simp [h]
      · simp only [hc, Bool.false_eq_true, if_false] at hrun
        exact ih _ _ hrun h

/-- C10 amended: the decoded text is written to the store once per
successfully decoded certificate candidate (in a completed run the number
of writes equals the number of decoder invocations), and the store's
single certificate slot ends up holding the text of the last candidate
written — last candidate wins. -/
theorem C10_write_amended :
    (∀ (now : CertDate) (decode : DirEntry → DecodeResult)
        (dir : Except String (List (Except String DirEntry))),
      (certificate_analysis now decode dir).state.certificate =
        (certificate_analysis now decode dir).state.certWrites.getLast?)
    ∧ (∀ (now : CertDate) (decode : DirEntry → DecodeResult)
        (entries : List (Except String DirEntry)) (st' : AnalysisState),
      certificate_analysis now decode (.ok entries) = .ok st' →
      st'.certWrites.length = st'.decoderCalls.length) := by
  constructor
  · intro now decode dir
    cases dir with
    | error e => rfl
    | ok entries => exact analysisLoop_cert_last now decode entries initState rfl
  · intro now decode entries st' hrun
    exact analysisLoop_writes_calls now decode entries initState st' hrun rfl

/-- Witness for C10 amended: in the two-candidate bundle the completed run
has as many writes as decoder invocations. -/
theorem C10_write_amended_witness :
    ([c10TextA, c10TextB] : List String).length =
      (["CERT.RSA", "CERT2.DSA"] : List String).length :=
  C10_write_amended.2 { year := 2025, month := 1, day := 1 } c10Decode c10Entries
    { certificate := some c10TextB, vulnerabilities := [],
      decoderCalls := ["CERT.RSA", "CERT2.DSA"],
      certWrites := [c10TextA, c10TextB] }
    (by decide)

end Certificate
